import Mathlib

/-!
# Slot areas and the leaves item handler

A verification development over two files of the server:

* `source/items/ItemLeaves.h`: the item handler of leaves, whose
  `GetBlockMeta` sets the bit that marks a leaves block placed by a player;
* `src/UI/SlotArea.h`: the slot areas of a UI window. The header gives the
  class layout and the bodies that are written inline (the default lifecycle
  hooks, the disabled `cSlotAreaCrafting::DistributeStack`). The bodies kept in
  the implementation file are modelled from the specification and marked so.
-/

namespace MCServer

/-! ## ItemLeaves.h -/

/-- The `NIBBLETYPE` of the source is an unsigned 8-bit integer; values are
naturals below `NIBBLE_MOD`, and a result is reduced modulo it. -/
def NIBBLE_MOD : Nat := 256

/-- The 8-bit complement of `0x4`, that is `~0x4` truncated to the width of
`NIBBLETYPE`. -/
def NOT_0x4 : Nat := 0xFB

namespace cItemLeavesHandler

/-- `cItemLeavesHandler::GetBlockMeta`: `return a_ItemMeta | 0x4;`, the result
converted back to the 8-bit return type. -/
def GetBlockMeta (a_ItemMeta : Nat) : Nat :=
  (a_ItemMeta ||| 0x4) % NIBBLE_MOD

end cItemLeavesHandler

/-! ## SlotArea.h : data model -/

/-- Modelled from the spec: the item stack `cItem` (declared in `Item.h`). The
spec gives it as `{type, count, metadata}` with a count that is never
negative. -/
structure cItem where
  m_ItemType : Int
  m_ItemCount : Nat
  m_ItemMeta : Int
deriving DecidableEq, Repr

/-- Modelled from the spec: the player `cPlayer` (declared elsewhere); the slot
areas only use the identity of a player, its entity ID. -/
structure cPlayer where
  m_UniqueID : Int
deriving DecidableEq, Repr

/-- The class `cSlotArea`: the members `m_NumSlots` and `m_ParentWindow` of the
header. The slot contents live in the subclasses, behind the pure virtual
`GetSlot` and `SetSlot`; they are the field `m_Backing`, of a type chosen by the
subclass. With `List cItem` for it, the area is one whose `GetSlot` and
`SetSlot` index a sequence of slots, in area order. The window type is
declared elsewhere and is a parameter. -/
structure cSlotArea (Window Backing : Type) where
  m_NumSlots : Int
  m_ParentWindow : Window
  m_Backing : Backing

namespace cSlotArea

/-- `virtual void OnPlayerAdded(cPlayer & a_Player) {} ;` -/
def OnPlayerAdded {Window Backing : Type} (self : cSlotArea Window Backing)
    (_a_Player : cPlayer) : cSlotArea Window Backing :=
  self

/-- `virtual void OnPlayerRemoved(cPlayer & a_Player) {} ;` -/
def OnPlayerRemoved {Window Backing : Type} (self : cSlotArea Window Backing)
    (_a_Player : cPlayer) : cSlotArea Window Backing :=
  self

end cSlotArea

/-- The member type `cItemMap` of `cSlotAreaTemporary`:
`std::map<int, std::vector<cItem> >`, EntityID -> items, as an association
list that is searched from the front. -/
abbrev cItemMap := List (Int × List cItem)

/-- The class `cSlotAreaTemporary`: the members of `cSlotArea` and the
per-player item map `m_Items`. -/
structure cSlotAreaTemporary (Window : Type) where
  m_NumSlots : Int
  m_ParentWindow : Window
  m_Items : cItemMap

/-- The member type `cRecipeMap` of `cSlotAreaCrafting`:
`std::list<std::pair<int, cCraftingRecipe> >`. The recipe class is declared
elsewhere and is a parameter. -/
abbrev cRecipeMap (Recipe : Type) := List (Int × Recipe)

/-- The class `cSlotAreaCrafting`: a `cSlotAreaTemporary` with the members
`m_GridSize` and `m_Recipes`. -/
structure cSlotAreaCrafting (Window Recipe : Type) extends cSlotAreaTemporary Window where
  m_GridSize : Int
  m_Recipes : cRecipeMap Recipe

namespace cSlotAreaCrafting

/-- `cSlotAreaCrafting::DistributeStack`, whose body in the header is `{}`:
"Distributing items into this area is completely disabled". The call returns
the area and the stack it was given (the stack is passed by reference). -/
def DistributeStack {Window Recipe : Type} (self : cSlotAreaCrafting Window Recipe)
    (a_ItemStack : cItem) (_a_Player : cPlayer) (_a_ShouldApply : Bool)
    (_a_KeepEmptySlots : Bool) : cSlotAreaCrafting Window Recipe × cItem :=
  (self, a_ItemStack)

end cSlotAreaCrafting

/-! ## SlotArea.cpp : bodies declared in the header, modelled from the specification -/

namespace cItem

/-- Modelled from the spec: the emptiness test of `cItem` (in `Item.h`): "a
stack with `count == 0` is semantically empty and interchangeable with an
absent stack". -/
def IsEmpty (self : cItem) : Bool :=
  self.m_ItemCount == 0

/-- Modelled from the spec: the stack of a slot that holds nothing, an entry of
the "zeroed slot sequence" a temporary area allocates. -/
def Zeroed : cItem :=
  { m_ItemType := 0, m_ItemCount := 0, m_ItemMeta := 0 }

/-- Modelled from the spec: a stack is at "full capacity" when its count has
reached the max stack size of its type; `GetMaxStackSize` is the item-handler
lookup `maxStackSize(type)`, a collaborator of the areas. -/
def IsFull (GetMaxStackSize : Int → Nat) (self : cItem) : Bool :=
  decide (GetMaxStackSize self.m_ItemType ≤ self.m_ItemCount)

end cItem

/-- Modelled from the spec: one pass over the slots of an area ("iterate slots
in area order"): `step` takes the travelling stack and a slot and gives both
back. -/
def forEachSlot (step : cItem → cItem → cItem × cItem) :
    cItem → List cItem → List cItem × cItem
  | a_ItemStack, [] => ([], a_ItemStack)
  | a_ItemStack, Slot :: rest =>
    let r := step a_ItemStack Slot
    let t := forEachSlot step r.1 rest
    (r.2 :: t.1, t.2)

namespace cSlotArea

/-- Modelled from the spec: first pass of `cSlotArea::DistributeStack` at one
slot. "for each slot, if it holds the same item type as `stack`, merge up to
remaining capacity; skip slots already at capacity"; empty slots belong to the
second pass. The stack's count is decremented "regardless of `shouldApply`";
the slot is written only when `a_ShouldApply` is set. -/
def DistributeStack.merge (GetMaxStackSize : Int → Nat) (a_ShouldApply : Bool)
    (a_ItemStack Slot : cItem) : cItem × cItem :=
  if Slot.IsEmpty || Slot.m_ItemType != a_ItemStack.m_ItemType then
    (a_ItemStack, Slot)
  else if GetMaxStackSize Slot.m_ItemType ≤ Slot.m_ItemCount then
    (a_ItemStack, Slot)
  else
    let NumFit := min (GetMaxStackSize Slot.m_ItemType - Slot.m_ItemCount) a_ItemStack.m_ItemCount
    ({ a_ItemStack with m_ItemCount := a_ItemStack.m_ItemCount - NumFit },
      if a_ShouldApply then { Slot with m_ItemCount := Slot.m_ItemCount + NumFit } else Slot)

/-- Modelled from the spec: second pass of `cSlotArea::DistributeStack` at one
slot, "placing remainder into empty slots": while the stack has a remainder, an
empty slot takes up to one max stack of it. -/
def DistributeStack.place (GetMaxStackSize : Int → Nat) (a_ShouldApply : Bool)
    (a_ItemStack Slot : cItem) : cItem × cItem :=
  if a_ItemStack.IsEmpty || !Slot.IsEmpty then
    (a_ItemStack, Slot)
  else
    let NumFit := min (GetMaxStackSize a_ItemStack.m_ItemType) a_ItemStack.m_ItemCount
    ({ a_ItemStack with m_ItemCount := a_ItemStack.m_ItemCount - NumFit },
      if a_ShouldApply then { a_ItemStack with m_ItemCount := NumFit } else Slot)

/-- Modelled from the spec: `cSlotArea::DistributeStack` on the slots the
player sees (its body is in `SlotArea.cpp`, the header only declares it).
"iterate slots in area order; ... If after this pass `stack` still has
remainder and `keepEmptySlots` is false, make a second pass placing remainder
into empty slots." The result is the slots and the stack after the call. -/
def DistributeStack.run (GetMaxStackSize : Int → Nat) (Slots : List cItem)
    (a_ItemStack : cItem) (a_ShouldApply a_KeepEmptySlots : Bool) : List cItem × cItem :=
  let first := forEachSlot (DistributeStack.merge GetMaxStackSize a_ShouldApply) a_ItemStack Slots
  if !first.2.IsEmpty && !a_KeepEmptySlots then
    forEachSlot (DistributeStack.place GetMaxStackSize a_ShouldApply) first.2 first.1
  else
    first

/-- Modelled from the spec: `cSlotArea::DistributeStack` of an area whose
`GetSlot` and `SetSlot` index a sequence of slots ("`SetSlot` replaces slot
contents"). The stack is passed by reference, so it is returned with the
area. -/
def DistributeStack {Window : Type} (GetMaxStackSize : Int → Nat)
    (self : cSlotArea Window (List cItem)) (a_ItemStack : cItem) (_a_Player : cPlayer)
    (a_ShouldApply a_KeepEmptySlots : Bool) : cSlotArea Window (List cItem) × cItem :=
  let r := DistributeStack.run GetMaxStackSize self.m_Backing a_ItemStack a_ShouldApply
    a_KeepEmptySlots
  ({ self with m_Backing := r.1 }, r.2)

/-- Modelled from the spec: whether the scan of `cSlotArea::CollectItemsToHand`
passes over a slot. A slot is collected from when it is not empty and its "item
type matches (or if `dragging` is empty ...)"; "a slot already at full capacity
is skipped unless `collectFullStacks` is true". -/
def CollectItemsToHand.skips (GetMaxStackSize : Int → Nat) (a_CollectFullStacks : Bool)
    (a_Dragging Slot : cItem) : Bool :=
  Slot.IsEmpty
    || !(a_Dragging.IsEmpty || Slot.m_ItemType == a_Dragging.m_ItemType)
    || (decide (GetMaxStackSize Slot.m_ItemType ≤ Slot.m_ItemCount) && !a_CollectFullStacks)

/-- Modelled from the spec: the move of `cSlotArea::CollectItemsToHand` at a
slot it collects from: an empty `dragging` adopts the slot's type, the items
are removed "from the slot immediately (slot is cleared/reduced)" and
accumulated "into `dragging` up to its max stack size". The result is
`a_Dragging` and the slot after the move. -/
def CollectItemsToHand.move (GetMaxStackSize : Int → Nat) (a_Dragging Slot : cItem) :
    cItem × cItem :=
  let Hand : cItem := if a_Dragging.IsEmpty then { Slot with m_ItemCount := 0 } else a_Dragging
  let ToMove := min (GetMaxStackSize Hand.m_ItemType - Hand.m_ItemCount) Slot.m_ItemCount
  ({ Hand with m_ItemCount := Hand.m_ItemCount + ToMove },
    { Slot with m_ItemCount := Slot.m_ItemCount - ToMove })

/-- Modelled from the spec: the scan of `cSlotArea::CollectItemsToHand` (its
body is in `SlotArea.cpp`). "scan slots; for each slot whose item type matches
..., remove it from the slot immediately and accumulate into `dragging` ...
Returns true once `dragging` reaches full capacity (stops scanning further
slots on that event), false if the area is exhausted with room left in
`dragging`." The header says the same of the flag: "Returns true if full stack
has been collected in a_Dragging, false if there's space remaining to fill."
So the scan stops with true at the move that fills `a_Dragging`, and at the end
of the area the flag is false when there is room left. The result is the
returned flag, `a_Dragging` and the slots after the call. -/
def CollectItemsToHand.run (GetMaxStackSize : Int → Nat) (a_CollectFullStacks : Bool) :
    cItem → List cItem → Bool × cItem × List cItem
  | a_Dragging, [] => (a_Dragging.IsFull GetMaxStackSize, a_Dragging, [])
  | a_Dragging, Slot :: rest =>
    if CollectItemsToHand.skips GetMaxStackSize a_CollectFullStacks a_Dragging Slot then
      let t := CollectItemsToHand.run GetMaxStackSize a_CollectFullStacks a_Dragging rest
      (t.1, t.2.1, Slot :: t.2.2)
    else
      let m := CollectItemsToHand.move GetMaxStackSize a_Dragging Slot
      if m.1.IsFull GetMaxStackSize then
        (true, m.1, m.2 :: rest)
      else
        let t := CollectItemsToHand.run GetMaxStackSize a_CollectFullStacks m.1 rest
        (t.1, t.2.1, m.2 :: t.2.2)

/-- Modelled from the spec: `cSlotArea::CollectItemsToHand` of an area whose
`GetSlot` and `SetSlot` index a sequence of slots. The result is the returned
flag, `a_Dragging` after the call and the area after the call. -/
def CollectItemsToHand {Window : Type} (GetMaxStackSize : Int → Nat)
    (self : cSlotArea Window (List cItem)) (a_Dragging : cItem) (_a_Player : cPlayer)
    (a_CollectFullStacks : Bool) : Bool × cItem × cSlotArea Window (List cItem) :=
  let r := CollectItemsToHand.run GetMaxStackSize a_CollectFullStacks a_Dragging self.m_Backing
  (r.1, r.2.1, { self with m_Backing := r.2.2 })

end cSlotArea

namespace cSlotAreaArmor

/-- Modelled from the spec: the scan of `cSlotAreaArmor::DistributeStack` (its
body is in `SlotArea.cpp`). "Armor overrides `DistributeStack` to reject items
whose equip-category does not match the slot's fixed category (e.g., only
head-gear fits slot 0) — the generic fill/skip algorithm applies only to the
single compatible slot, if any." `a_Category` is the equip-category of the
stack's item type, `SlotCategory` the fixed category of each slot; both come
from collaborators. The scan is at slot number `a_SlotNum`. -/
def DistributeStack.run {Category : Type} [DecidableEq Category]
    (GetMaxStackSize : Int → Nat) (SlotCategory : Nat → Category) (a_Category : Category)
    (a_ShouldApply a_KeepEmptySlots : Bool) :
    Nat → cItem → List cItem → List cItem × cItem
  | _, a_ItemStack, [] => ([], a_ItemStack)
  | a_SlotNum, a_ItemStack, Slot :: rest =>
    if SlotCategory a_SlotNum = a_Category then
      let r := cSlotArea.DistributeStack.run GetMaxStackSize [Slot] a_ItemStack a_ShouldApply
        a_KeepEmptySlots
      (r.1 ++ rest, r.2)
    else
      let t := DistributeStack.run GetMaxStackSize SlotCategory a_Category a_ShouldApply
        a_KeepEmptySlots (a_SlotNum + 1) a_ItemStack rest
      (Slot :: t.1, t.2)

/-- Modelled from the spec: `cSlotAreaArmor::DistributeStack` on the armor
slots of the player. `EquipCategory` is the item-handler lookup of the
equip-category of an item type. -/
def DistributeStack {Window Category : Type} [DecidableEq Category]
    (GetMaxStackSize : Int → Nat) (EquipCategory : Int → Category)
    (SlotCategory : Nat → Category) (self : cSlotArea Window (List cItem))
    (a_ItemStack : cItem) (_a_Player : cPlayer) (a_ShouldApply a_KeepEmptySlots : Bool) :
    cSlotArea Window (List cItem) × cItem :=
  let r := DistributeStack.run GetMaxStackSize SlotCategory
    (EquipCategory a_ItemStack.m_ItemType) a_ShouldApply a_KeepEmptySlots 0 a_ItemStack
    self.m_Backing
  ({ self with m_Backing := r.1 }, r.2)

end cSlotAreaArmor

namespace cSlotAreaTemporary

/-- Modelled from the spec: the lookup of "the player's sequence" in a
`cItemMap`, by entity ID. -/
def findItems (a_EntityID : Int) : cItemMap → Option (List cItem)
  | [] => none
  | (id, items) :: rest => if id = a_EntityID then some items else findItems a_EntityID rest

/-- Modelled from the spec: replaces slot `a_SlotNum` of the sequence stored
under an entity ID; a map without that ID, or a sequence without that slot, is
left as it is. -/
def storeItem (a_EntityID : Int) (a_SlotNum : Nat) (a_Item : cItem) : cItemMap → cItemMap
  | [] => []
  | (id, items) :: rest =>
    if id = a_EntityID then (id, items.set a_SlotNum a_Item) :: rest
    else (id, items) :: storeItem a_EntityID a_SlotNum a_Item rest

/-- Modelled from the spec: `cSlotAreaTemporary::GetSlot` (its body is in
`SlotArea.cpp`). "`GetSlot`/`SetSlot` look up the player's sequence; if none
exists (player not yet registered), behavior is to treat the area as all-empty
for reads"; `GetSlot` "must always return a well-defined stack (empty if
none)", so an out-of-range slot number reads as empty as well. -/
def GetSlot {Window : Type} (self : cSlotAreaTemporary Window) (a_SlotNum : Int)
    (a_Player : cPlayer) : cItem :=
  match findItems a_Player.m_UniqueID self.m_Items with
  | none => cItem.Zeroed
  | some items => if 0 ≤ a_SlotNum then items.getD a_SlotNum.toNat cItem.Zeroed else cItem.Zeroed

/-- Modelled from the spec: `cSlotAreaTemporary::SetSlot` (its body is in
`SlotArea.cpp`): replaces the slot in the player's sequence. A missing player
registration and an out-of-range slot number are contract violations,
"best-effort no-op in release". -/
def SetSlot {Window : Type} (self : cSlotAreaTemporary Window) (a_SlotNum : Int)
    (a_Player : cPlayer) (a_Item : cItem) : cSlotAreaTemporary Window :=
  if 0 ≤ a_SlotNum then
    { self with m_Items := storeItem a_Player.m_UniqueID a_SlotNum.toNat a_Item self.m_Items }
  else
    self

end cSlotAreaTemporary

namespace cSlotAreaCrafting

/-- `cSlotAreaCrafting` does not override `GetSlot`: the call is the one of
`cSlotAreaTemporary`. -/
def GetSlot {Window Recipe : Type} (self : cSlotAreaCrafting Window Recipe) (a_SlotNum : Int)
    (a_Player : cPlayer) : cItem :=
  self.tocSlotAreaTemporary.GetSlot a_SlotNum a_Player

/-- `cSlotAreaCrafting` does not override `SetSlot`: the call is the one of
`cSlotAreaTemporary`, on the inherited members. -/
def SetSlot {Window Recipe : Type} (self : cSlotAreaCrafting Window Recipe) (a_SlotNum : Int)
    (a_Player : cPlayer) (a_Item : cItem) : cSlotAreaCrafting Window Recipe :=
  { self with
    tocSlotAreaTemporary := self.tocSlotAreaTemporary.SetSlot a_SlotNum a_Player a_Item }

end cSlotAreaCrafting

/-! ## Counting items -/

/-- The number of items of type `a_ItemType` in a stack. -/
def countOf (a_ItemType : Int) (a_Item : cItem) : Nat :=
  if a_Item.m_ItemType = a_ItemType then a_Item.m_ItemCount else 0

/-- The total count of type `a_ItemType` over the slots of an area. -/
def totalOf (a_ItemType : Int) : List cItem → Nat
  | [] => 0
  | Slot :: rest => countOf a_ItemType Slot + totalOf a_ItemType rest

/-- A call on an area that moves items between the area and the carried stack:
an applied `DistributeStack`, or a `CollectItemsToHand`. -/
inductive AreaCall where
  | distribute (a_Player : cPlayer) (a_KeepEmptySlots : Bool)
  | collect (a_Player : cPlayer) (a_CollectFullStacks : Bool)

/-- Performs one call on the area and the carried stack. -/
def AreaCall.perform {Window : Type} (GetMaxStackSize : Int → Nat) :
    AreaCall → cSlotArea Window (List cItem) × cItem → cSlotArea Window (List cItem) × cItem
  | .distribute a_Player a_KeepEmptySlots, (area, stack) =>
    cSlotArea.DistributeStack GetMaxStackSize area stack a_Player true a_KeepEmptySlots
  | .collect a_Player a_CollectFullStacks, (area, stack) =>
    let r := cSlotArea.CollectItemsToHand GetMaxStackSize area stack a_Player a_CollectFullStacks
    (r.2.2, r.2.1)

/-- Performs a sequence of calls, first to last. -/
def performAll {Window : Type} (GetMaxStackSize : Int → Nat) :
    List AreaCall → cSlotArea Window (List cItem) × cItem → cSlotArea Window (List cItem) × cItem
  | [], state => state
  | call :: calls, state =>
    performAll GetMaxStackSize calls (call.perform GetMaxStackSize state)

/-! ## Inputs for the examples -/

/-- An item-handler lookup for the examples: every type stacks to 64, except
type 298 (a helmet), which stacks to 1. -/
def exampleMaxStackSize (a_ItemType : Int) : Nat :=
  if a_ItemType = 298 then 1 else 64

/-- An equip-category lookup for the examples: category 0 (head-gear) for
type 298, category 4 (none) for every other type. -/
def exampleEquipCategory (a_ItemType : Int) : Nat :=
  if a_ItemType = 298 then 0 else 4

/-- Slot categories for the examples: slot `i` has category `i` (0 head-gear,
1 chest, 2 legs, 3 feet). -/
def exampleSlotCategory (a_SlotNum : Nat) : Nat :=
  a_SlotNum

/-- An armor area with four empty slots. -/
def exampleArmorArea : cSlotArea Unit (List cItem) :=
  { m_NumSlots := 4, m_ParentWindow := (),
    m_Backing := [cItem.Zeroed, cItem.Zeroed, cItem.Zeroed, cItem.Zeroed] }

/-- An area of four slots: 60 of type 1, an empty slot, 5 of type 2, 10 of
type 1. -/
def exampleArea : cSlotArea Unit (List cItem) :=
  { m_NumSlots := 4, m_ParentWindow := (),
    m_Backing := [⟨1, 60, 0⟩, cItem.Zeroed, ⟨2, 5, 0⟩, ⟨1, 10, 0⟩] }

/-! ## Theorems : ItemLeaves.h -/

/-- The bits of the constant `0x4`: only bit 2 is set. -/
theorem testBit_four (i : Nat) : Nat.testBit 4 i = decide (i = 2) := by
  match i with
  | 0 => rfl
  | 1 => rfl
  | 2 => rfl
  | (k+3) =>
    have hlt : (4:Nat) < 2 ^ (k+3) := by
      have : 2 ^ 3 ≤ 2 ^ (k+3) := Nat.pow_le_pow_right (by decide) (by omega)
      omega
    rw [Nat.testBit_lt_two_pow hlt]; simp

/-- The bits of `GetBlockMeta m`: below bit 8, the bits of `m` with bit 2 set. -/
theorem testBit_GetBlockMeta (m i : Nat) :
    (cItemLeavesHandler.GetBlockMeta m).testBit i
      = (decide (i < 8) && (m.testBit i || decide (i = 2))) := by
  unfold cItemLeavesHandler.GetBlockMeta NIBBLE_MOD
  rw [show (256:Nat) = 2 ^ 8 from rfl, Nat.testBit_mod_two_pow, Nat.testBit_or, testBit_four]

/-- The bits of the 8-bit complement of `0x4`: every bit below 8 except bit 2. -/
theorem testBit_NOT_0x4 (i : Nat) :
    NOT_0x4.testBit i = (decide (i < 8) && !decide (i = 2)) := by
  have h : NOT_0x4 = 2 ^ 8 - (4 + 1) := rfl
  by_cases hi : i < 8
  · rw [h, Nat.testBit_two_pow_sub_succ (by decide), testBit_four]
  · have hlt : NOT_0x4 < 2 ^ i := by
      have : 2 ^ 8 ≤ 2 ^ i := Nat.pow_le_pow_right (by decide) (by omega)
      unfold NOT_0x4; omega
    rw [Nat.testBit_lt_two_pow hlt]; simp [hi]

/-- A value below `2 ^ 8` has no bit at position 8 or above. -/
theorem testBit_nibble_high (m i : Nat) (h : m < NIBBLE_MOD) (hi : ¬ i < 8) :
    m.testBit i = false := by
  have hlt : m < 2 ^ i := by
    have : 2 ^ 8 ≤ 2 ^ i := Nat.pow_le_pow_right (by decide) (by omega)
    unfold NIBBLE_MOD at h; omega
  exact Nat.testBit_lt_two_pow hlt

/-- C8: for every 8-bit item metadata `m`, `GetBlockMeta m = m | 0x4`, and the
`0x4` bit of the result is set. -/
theorem GetBlockMeta_sets_player_bit (m : Nat) (h : m < NIBBLE_MOD) :
    cItemLeavesHandler.GetBlockMeta m = m ||| 0x4 ∧
      cItemLeavesHandler.GetBlockMeta m &&& 0x4 = 0x4 := by
  constructor
  · apply Nat.eq_of_testBit_eq
    intro i
    rw [testBit_GetBlockMeta, Nat.testBit_or, testBit_four]
    by_cases h8 : i < 8
    · simp [h8]
    · have h2 : ¬ i = 2 := by omega
      simp [h8, h2, testBit_nibble_high m i h h8]
  · apply Nat.eq_of_testBit_eq
    intro i
    rw [Nat.testBit_and, testBit_GetBlockMeta, testBit_four]
    by_cases h2 : i = 2
    · subst h2; simp
    · simp [h2]

/-- C8 at the metadata 3: the result is 7. -/
theorem GetBlockMeta_sets_player_bit_witness :
    (3 : Nat) < NIBBLE_MOD ∧
      (cItemLeavesHandler.GetBlockMeta 3 = 3 ||| 0x4 ∧
        cItemLeavesHandler.GetBlockMeta 3 &&& 0x4 = 0x4) :=
  ⟨by decide, GetBlockMeta_sets_player_bit 3 (by decide)⟩

/-- C9: `GetBlockMeta` changes no bit other than `0x4`: the result and the
argument agree under the mask `~0x4`, so the leaf-type bits `0x3` and the `0x8`
bit are kept, and a metadata in `0..15` gives a result in `0..15`. -/
theorem GetBlockMeta_preserves_other_bits (m : Nat) :
    cItemLeavesHandler.GetBlockMeta m &&& NOT_0x4 = m &&& NOT_0x4 ∧
      cItemLeavesHandler.GetBlockMeta m &&& 0x3 = m &&& 0x3 ∧
      cItemLeavesHandler.GetBlockMeta m &&& 0x8 = m &&& 0x8 ∧
      (m < 16 → cItemLeavesHandler.GetBlockMeta m < 16) := by
  refine ⟨?_, ?_, ?_, ?_⟩
  · apply Nat.eq_of_testBit_eq
    intro i
    simp only [Nat.testBit_and, testBit_GetBlockMeta, testBit_NOT_0x4]
    by_cases h8 : i < 8 <;> by_cases h2 : i = 2 <;> simp [h8, h2]
  · have h3 : ∀ i, Nat.testBit 3 i = decide (i < 2) := by
      intro i
      rw [show (3:Nat) = 2 ^ 2 - 1 from rfl, Nat.testBit_two_pow_sub_one]
    apply Nat.eq_of_testBit_eq
    intro i
    simp only [Nat.testBit_and, testBit_GetBlockMeta, h3]
    by_cases h2 : i < 2
    · have h8 : i < 8 := by omega
      have hne : ¬ i = 2 := by omega
      simp [h2, h8, hne]
    · simp [h2]
  · have h8 : ∀ i, Nat.testBit 8 i = decide (i = 3) := by
      intro i
      rw [show (8:Nat) = 2 ^ 3 from rfl, Nat.testBit_two_pow]
      by_cases h : i = 3
      · simp [h]
      · have h' : ¬ 3 = i := fun e => h e.symm
        simp [h, h']
    apply Nat.eq_of_testBit_eq
    intro i
    simp only [Nat.testBit_and, testBit_GetBlockMeta, h8]
    by_cases h3 : i = 3
    · subst h3; simp
    · simp [h3]
  · intro h
    have h1 : m ||| 4 < 2 ^ 4 :=
      Nat.bitwise_lt_two_pow (n := 4) (by simpa using h) (by decide)
    unfold cItemLeavesHandler.GetBlockMeta NIBBLE_MOD
    have h2 : (m ||| 4) % 256 ≤ m ||| 4 := Nat.mod_le _ _
    have h3 : (2:Nat) ^ 4 = 16 := rfl
    omega

/-- C9 at the metadata 11 (`0b1011`): the result is 15, within `0..15`. -/
theorem GetBlockMeta_preserves_other_bits_witness :
    (11 : Nat) < 16 ∧ cItemLeavesHandler.GetBlockMeta 11 < 16 :=
  ⟨by decide, (GetBlockMeta_preserves_other_bits 11).2.2.2 (by decide)⟩

/-- C10: `GetBlockMeta` is idempotent, and an 8-bit metadata that already has
the `0x4` bit set is returned unchanged. -/
theorem GetBlockMeta_idempotent (m : Nat) :
    cItemLeavesHandler.GetBlockMeta (cItemLeavesHandler.GetBlockMeta m)
        = cItemLeavesHandler.GetBlockMeta m ∧
      (m < NIBBLE_MOD → m &&& 0x4 = 0x4 → cItemLeavesHandler.GetBlockMeta m = m) := by
  constructor
  · apply Nat.eq_of_testBit_eq
    intro i
    simp only [testBit_GetBlockMeta]
    by_cases h8 : i < 8 <;> by_cases h2 : i = 2 <;> simp [h8, h2]
  · intro h hb
    apply Nat.eq_of_testBit_eq
    intro i
    rw [testBit_GetBlockMeta]
    have hbi := congrArg (fun x => Nat.testBit x i) hb
    simp only [Nat.testBit_and, testBit_four] at hbi
    by_cases h8 : i < 8
    · by_cases h2 : i = 2
      · subst h2; simpa using hbi
      · simp [h8, h2]
    · rw [testBit_nibble_high m i h h8]; simp [h8]

/-- C10 at the metadata 6, which has the `0x4` bit set: it is returned as it
is. -/
theorem GetBlockMeta_idempotent_witness :
    ((6 : Nat) < NIBBLE_MOD ∧ (6 : Nat) &&& 0x4 = 0x4) ∧
      cItemLeavesHandler.GetBlockMeta 6 = 6 :=
  ⟨⟨by decide, by decide⟩, (GetBlockMeta_idempotent 6).2 (by decide) (by decide)⟩

/-! ## Theorems : the bodies written in SlotArea.h -/

/-- C7: the default lifecycle hooks `cSlotArea::OnPlayerAdded` and
`cSlotArea::OnPlayerRemoved` leave the area as it is: the slot count, the
parent window and the slot contents are the same after the call. -/
theorem default_hooks_leave_area {Window Backing : Type} (self : cSlotArea Window Backing)
    (a_Player : cPlayer) :
    (self.OnPlayerAdded a_Player = self ∧ self.OnPlayerRemoved a_Player = self) ∧
      ((self.OnPlayerAdded a_Player).m_NumSlots = self.m_NumSlots ∧
        (self.OnPlayerAdded a_Player).m_ParentWindow = self.m_ParentWindow ∧
        (self.OnPlayerAdded a_Player).m_Backing = self.m_Backing) ∧
      ((self.OnPlayerRemoved a_Player).m_NumSlots = self.m_NumSlots ∧
        (self.OnPlayerRemoved a_Player).m_ParentWindow = self.m_ParentWindow ∧
        (self.OnPlayerRemoved a_Player).m_Backing = self.m_Backing) :=
  ⟨⟨rfl, rfl⟩, ⟨rfl, rfl, rfl⟩, ⟨rfl, rfl, rfl⟩⟩

/-- C1: `cSlotAreaCrafting::DistributeStack` changes nothing: the stack keeps
its type, count and metadata, and the area keeps every player's slots
(`m_Items`) and bound recipe (`m_Recipes`), whatever the player and the two
flags. -/
theorem crafting_DistributeStack_noop {Window Recipe : Type}
    (self : cSlotAreaCrafting Window Recipe) (a_ItemStack : cItem) (a_Player : cPlayer)
    (a_ShouldApply a_KeepEmptySlots : Bool) :
    ((self.DistributeStack a_ItemStack a_Player a_ShouldApply a_KeepEmptySlots).2.m_ItemType
        = a_ItemStack.m_ItemType ∧
      (self.DistributeStack a_ItemStack a_Player a_ShouldApply a_KeepEmptySlots).2.m_ItemCount
        = a_ItemStack.m_ItemCount ∧
      (self.DistributeStack a_ItemStack a_Player a_ShouldApply a_KeepEmptySlots).2.m_ItemMeta
        = a_ItemStack.m_ItemMeta) ∧
      (self.DistributeStack a_ItemStack a_Player a_ShouldApply a_KeepEmptySlots).1.m_Items
        = self.m_Items ∧
      (self.DistributeStack a_ItemStack a_Player a_ShouldApply a_KeepEmptySlots).1.m_Recipes
        = self.m_Recipes ∧
      (self.DistributeStack a_ItemStack a_Player a_ShouldApply a_KeepEmptySlots).1 = self :=
  ⟨⟨rfl, rfl, rfl⟩, rfl, rfl, rfl⟩

/-! ## Theorems : per-player storage of the temporary areas -/

/-- Storing under one entity ID does not change what is found under another. -/
theorem findItems_storeItem_of_ne (a b : Int) (hab : a ≠ b) (n : Nat) (x : cItem)
    (m : cItemMap) :
    cSlotAreaTemporary.findItems b (cSlotAreaTemporary.storeItem a n x m)
      = cSlotAreaTemporary.findItems b m := by
  induction m with
  | nil => rfl
  | cons e rest ih =>
    obtain ⟨id, items⟩ := e
    by_cases h1 : id = a
    · subst h1
      simp [cSlotAreaTemporary.storeItem, cSlotAreaTemporary.findItems, hab]
    · by_cases h2 : id = b
      · subst h2
        simp [cSlotAreaTemporary.storeItem, cSlotAreaTemporary.findItems, h1]
      · simp [cSlotAreaTemporary.storeItem, cSlotAreaTemporary.findItems, h1, h2, ih]

/-- `SetSlot` of a temporary area for one player does not change `GetSlot` for
a player with another entity ID. -/
theorem temporary_GetSlot_SetSlot_of_ne {Window : Type} (self : cSlotAreaTemporary Window)
    (A B : cPlayer) (hAB : A.m_UniqueID ≠ B.m_UniqueID) (i j : Int) (a_Item : cItem) :
    (self.SetSlot i A a_Item).GetSlot j B = self.GetSlot j B := by
  unfold cSlotAreaTemporary.SetSlot cSlotAreaTemporary.GetSlot
  by_cases hi : 0 ≤ i
  · simp only [hi, if_true]
    rw [findItems_storeItem_of_ne _ _ hAB]
  · simp only [hi, if_false]

/-- C6: in a `cSlotAreaTemporary`, and so in the crafting area, `SetSlot(i, A,
item)` leaves the value of `GetSlot(j, B)` unchanged for every two players
with distinct entity IDs and all slot numbers `i`, `j`: the storage is keyed by
the entity ID. -/
theorem temporary_isolation {Window Recipe : Type} (self : cSlotAreaTemporary Window)
    (crafting : cSlotAreaCrafting Window Recipe) (A B : cPlayer)
    (hAB : A.m_UniqueID ≠ B.m_UniqueID) (i j : Int) (a_Item : cItem) :
    (self.SetSlot i A a_Item).GetSlot j B = self.GetSlot j B ∧
      (crafting.SetSlot i A a_Item).GetSlot j B = crafting.GetSlot j B :=
  ⟨temporary_GetSlot_SetSlot_of_ne self A B hAB i j a_Item,
    temporary_GetSlot_SetSlot_of_ne crafting.tocSlotAreaTemporary A B hAB i j a_Item⟩

/-- C6 on an area with two registered players, 7 and 9: player 7 writes its
slot 1, which it then reads back, and player 9 still reads its own item. -/
theorem temporary_isolation_witness :
    (7 : Int) ≠ 9 ∧
      ((({ m_NumSlots := 2, m_ParentWindow := (), m_Items :=
            [(7, [cItem.Zeroed, cItem.Zeroed]), (9, [cItem.Zeroed, ⟨3, 5, 0⟩])] }
          : cSlotAreaTemporary Unit).SetSlot 1 ⟨7⟩ ⟨4, 1, 0⟩).GetSlot 1 ⟨9⟩ = ⟨3, 5, 0⟩ ∧
        (({ m_NumSlots := 2, m_ParentWindow := (), m_Items :=
            [(7, [cItem.Zeroed, cItem.Zeroed]), (9, [cItem.Zeroed, ⟨3, 5, 0⟩])] }
          : cSlotAreaTemporary Unit).SetSlot 1 ⟨7⟩ ⟨4, 1, 0⟩).GetSlot 1 ⟨7⟩ = ⟨4, 1, 0⟩) :=
  ⟨by decide,
    ((@temporary_isolation Unit Unit
        ({ m_NumSlots := 2, m_ParentWindow := (), m_Items :=
            [(7, [cItem.Zeroed, cItem.Zeroed]), (9, [cItem.Zeroed, ⟨3, 5, 0⟩])] }
          : cSlotAreaTemporary Unit)
        { m_NumSlots := 2, m_ParentWindow := (), m_Items := [], m_GridSize := 2,
          m_Recipes := [] }
        ⟨7⟩ ⟨9⟩ (by decide) 1 1 ⟨4, 1, 0⟩).1.trans (by decide)),
    by decide⟩

/-! ## Theorems : DistributeStack -/

/-- A pass keeps the number of slots. -/
theorem forEachSlot_length (step : cItem → cItem → cItem × cItem) (a_ItemStack : cItem)
    (Slots : List cItem) : (forEachSlot step a_ItemStack Slots).1.length = Slots.length := by
  induction Slots generalizing a_ItemStack with
  | nil => rfl
  | cons Slot rest ih => simp [forEachSlot, ih]

/-- A pass whose step never writes a slot leaves the slots as they are. -/
theorem forEachSlot_slots_of_step (step : cItem → cItem → cItem × cItem)
    (hstep : ∀ a_ItemStack Slot, (step a_ItemStack Slot).2 = Slot) (a_ItemStack : cItem)
    (Slots : List cItem) : (forEachSlot step a_ItemStack Slots).1 = Slots := by
  induction Slots generalizing a_ItemStack with
  | nil => rfl
  | cons Slot rest ih => simp [forEachSlot, ih, hstep]

/-- Two passes whose steps treat the stack alike, over slot lists whose slots
are related by a relation the steps respect, leave the same stack. -/
theorem forEachSlot_stack_congr (stepA stepB : cItem → cItem → cItem × cItem)
    (R : cItem → cItem → Prop)
    (hstep : ∀ a_ItemStack x y, R x y → (stepA a_ItemStack x).1 = (stepB a_ItemStack y).1)
    (a_ItemStack : cItem) (xs ys : List cItem) (hxy : List.Forall₂ R xs ys) :
    (forEachSlot stepA a_ItemStack xs).2 = (forEachSlot stepB a_ItemStack ys).2 := by
  induction hxy generalizing a_ItemStack with
  | nil => rfl
  | cons hxy _ ih =>
    simp only [forEachSlot]
    rw [hstep a_ItemStack _ _ hxy]
    exact ih _

/-- The first pass takes the same count off the stack whether or not it
writes the slot. -/
theorem merge_stack_indep (GetMaxStackSize : Int → Nat) (a b : Bool)
    (a_ItemStack Slot : cItem) :
    (cSlotArea.DistributeStack.merge GetMaxStackSize a a_ItemStack Slot).1
      = (cSlotArea.DistributeStack.merge GetMaxStackSize b a_ItemStack Slot).1 := by
  unfold cSlotArea.DistributeStack.merge
  split_ifs <;> rfl

/-- The first pass of a dry run writes no slot. -/
theorem merge_dry_slot (GetMaxStackSize : Int → Nat) (a_ItemStack Slot : cItem) :
    (cSlotArea.DistributeStack.merge GetMaxStackSize false a_ItemStack Slot).2 = Slot := by
  unfold cSlotArea.DistributeStack.merge
  simp only [Bool.false_eq_true, if_false]
  split_ifs <;> rfl

/-- The first pass never turns an empty slot into a filled one, nor a filled
slot into an empty one. -/
theorem merge_slot_IsEmpty (GetMaxStackSize : Int → Nat) (a : Bool)
    (a_ItemStack Slot : cItem) :
    (cSlotArea.DistributeStack.merge GetMaxStackSize a a_ItemStack Slot).2.IsEmpty
      = Slot.IsEmpty := by
  unfold cSlotArea.DistributeStack.merge
  split_ifs with h1 h2 h3
  · rfl
  · rfl
  · simp only [Bool.or_eq_true, not_or] at h1
    have hne : Slot.IsEmpty = false := by simpa using h1.1
    rw [hne]
    unfold cItem.IsEmpty at hne ⊢
    simp only [beq_eq_false_iff_ne, ne_eq] at hne
    simp [hne]
  · rfl

/-- The second pass of a dry run writes no slot. -/
theorem place_dry_slot (GetMaxStackSize : Int → Nat) (a_ItemStack Slot : cItem) :
    (cSlotArea.DistributeStack.place GetMaxStackSize false a_ItemStack Slot).2 = Slot := by
  unfold cSlotArea.DistributeStack.place
  simp only [Bool.false_eq_true, if_false]
  split_ifs <;> rfl

/-- What the second pass takes off the stack depends on the slot only through
its being empty or not. -/
theorem place_stack_congr (GetMaxStackSize : Int → Nat) (a b : Bool)
    (a_ItemStack x y : cItem) (hxy : x.IsEmpty = y.IsEmpty) :
    (cSlotArea.DistributeStack.place GetMaxStackSize a a_ItemStack x).1
      = (cSlotArea.DistributeStack.place GetMaxStackSize b a_ItemStack y).1 := by
  unfold cSlotArea.DistributeStack.place
  rw [hxy]
  split_ifs <;> rfl

/-- After the first pass every slot is empty exactly when it was before. -/
theorem forEachSlot_merge_IsEmpty (GetMaxStackSize : Int → Nat) (a : Bool)
    (a_ItemStack : cItem) (Slots : List cItem) :
    List.Forall₂ (fun x y => x.IsEmpty = y.IsEmpty) Slots
      (forEachSlot (cSlotArea.DistributeStack.merge GetMaxStackSize a) a_ItemStack Slots).1 := by
  induction Slots generalizing a_ItemStack with
  | nil => exact List.Forall₂.nil
  | cons Slot rest ih =>
    simp only [forEachSlot]
    exact List.Forall₂.cons (merge_slot_IsEmpty GetMaxStackSize a a_ItemStack Slot).symm (ih _)

/-- A dry run of the slot-list algorithm returns the slots it was given. -/
theorem DistributeStack_run_dry_slots (GetMaxStackSize : Int → Nat) (Slots : List cItem)
    (a_ItemStack : cItem) (a_KeepEmptySlots : Bool) :
    (cSlotArea.DistributeStack.run GetMaxStackSize Slots a_ItemStack false a_KeepEmptySlots).1
      = Slots := by
  have h1 := forEachSlot_slots_of_step _ (merge_dry_slot GetMaxStackSize) a_ItemStack Slots
  unfold cSlotArea.DistributeStack.run
  simp only
  split_ifs
  · rw [forEachSlot_slots_of_step _ (place_dry_slot GetMaxStackSize), h1]
  · exact h1

/-- A dry run of the slot-list algorithm leaves the same stack as the applied
run from the same slots. -/
theorem DistributeStack_run_dry_stack (GetMaxStackSize : Int → Nat) (Slots : List cItem)
    (a_ItemStack : cItem) (a_KeepEmptySlots : Bool) :
    (cSlotArea.DistributeStack.run GetMaxStackSize Slots a_ItemStack false a_KeepEmptySlots).2
      = (cSlotArea.DistributeStack.run GetMaxStackSize Slots a_ItemStack true
          a_KeepEmptySlots).2 := by
  have hst : (forEachSlot (cSlotArea.DistributeStack.merge GetMaxStackSize false)
        a_ItemStack Slots).2
      = (forEachSlot (cSlotArea.DistributeStack.merge GetMaxStackSize true)
        a_ItemStack Slots).2 :=
    forEachSlot_stack_congr _ _ (fun x y => x = y)
      (fun st x y hxy => by rw [hxy]; exact merge_stack_indep GetMaxStackSize false true st y)
      a_ItemStack Slots Slots (List.forall₂_same.mpr (fun _ _ => rfl))
  have hsl : (forEachSlot (cSlotArea.DistributeStack.merge GetMaxStackSize false)
        a_ItemStack Slots).1 = Slots :=
    forEachSlot_slots_of_step _ (merge_dry_slot GetMaxStackSize) a_ItemStack Slots
  unfold cSlotArea.DistributeStack.run
  simp only
  rw [hst, hsl]
  split_ifs
  · exact forEachSlot_stack_congr _ _ (fun x y => x.IsEmpty = y.IsEmpty)
      (fun st x y hxy => place_stack_congr GetMaxStackSize false true st x y hxy)
      _ _ _ (forEachSlot_merge_IsEmpty GetMaxStackSize true a_ItemStack Slots)
  · exact hst

/-- C2: dry-run equivalence of `DistributeStack`. The call with
`a_ShouldApply = false` leaves the area, and so every slot of it, unchanged,
and the count left in `a_ItemStack` is the count left by the call with
`a_ShouldApply = true` from the same state; this holds for the base area and
for the crafting area, whose `DistributeStack` is disabled. -/
theorem DistributeStack_dry_run_equivalence {Window Recipe : Type}
    (GetMaxStackSize : Int → Nat) (self : cSlotArea Window (List cItem))
    (crafting : cSlotAreaCrafting Window Recipe) (a_ItemStack : cItem) (a_Player : cPlayer)
    (a_KeepEmptySlots : Bool) :
    ((cSlotArea.DistributeStack GetMaxStackSize self a_ItemStack a_Player false
          a_KeepEmptySlots).1 = self ∧
      (cSlotArea.DistributeStack GetMaxStackSize self a_ItemStack a_Player false
          a_KeepEmptySlots).2.m_ItemCount
        = (cSlotArea.DistributeStack GetMaxStackSize self a_ItemStack a_Player true
          a_KeepEmptySlots).2.m_ItemCount) ∧
      ((crafting.DistributeStack a_ItemStack a_Player false a_KeepEmptySlots).1 = crafting ∧
        (crafting.DistributeStack a_ItemStack a_Player false a_KeepEmptySlots).2.m_ItemCount
          = (crafting.DistributeStack a_ItemStack a_Player true
            a_KeepEmptySlots).2.m_ItemCount) := by
  refine ⟨⟨?_, ?_⟩, rfl, rfl⟩
  · unfold cSlotArea.DistributeStack
    simp only [DistributeStack_run_dry_slots]
  · unfold cSlotArea.DistributeStack
    simp only [DistributeStack_run_dry_stack]

/-- The slot-list algorithm keeps the number of slots. -/
theorem DistributeStack_run_length (GetMaxStackSize : Int → Nat) (Slots : List cItem)
    (a_ItemStack : cItem) (a_ShouldApply a_KeepEmptySlots : Bool) :
    (cSlotArea.DistributeStack.run GetMaxStackSize Slots a_ItemStack a_ShouldApply
        a_KeepEmptySlots).1.length = Slots.length := by
  unfold cSlotArea.DistributeStack.run
  simp only
  split_ifs
  · rw [forEachSlot_length, forEachSlot_length]
  · rw [forEachSlot_length]

/-! ## Theorems : the armor area -/

/-- The armor scan leaves every slot whose category differs from the item's. -/
theorem armor_run_other_slots {Category : Type} [DecidableEq Category]
    (GetMaxStackSize : Int → Nat) (SlotCategory : Nat → Category) (c : Category)
    (a_ShouldApply a_KeepEmptySlots : Bool) (n : Nat) (a_ItemStack : cItem)
    (Slots : List cItem) (i : Nat) (hne : SlotCategory (n + i) ≠ c) :
    (cSlotAreaArmor.DistributeStack.run GetMaxStackSize SlotCategory c a_ShouldApply
        a_KeepEmptySlots n a_ItemStack Slots).1[i]? = Slots[i]? := by
  induction Slots generalizing n i with
  | nil => rfl
  | cons Slot rest ih =>
    unfold cSlotAreaArmor.DistributeStack.run
    by_cases hc : SlotCategory n = c
    · simp only [hc, if_true]
      cases i with
      | zero => exact absurd hc hne
      | succ k =>
        have hlen := DistributeStack_run_length GetMaxStackSize [Slot] a_ItemStack
          a_ShouldApply a_KeepEmptySlots
        rw [List.getElem?_append_right (by rw [hlen]; simp), hlen]
        simp
    · simp only [hc, if_false]
      cases i with
      | zero => simp
      | succ k =>
        simp only [List.getElem?_cons_succ]
        exact ih (n + 1) k (by rw [show n + 1 + k = n + (k + 1) by omega]; exact hne)

/-- The armor scan changes nothing when no slot has the item's category. -/
theorem armor_run_no_match {Category : Type} [DecidableEq Category]
    (GetMaxStackSize : Int → Nat) (SlotCategory : Nat → Category) (c : Category)
    (a_ShouldApply a_KeepEmptySlots : Bool) (n : Nat) (a_ItemStack : cItem)
    (Slots : List cItem) (hne : ∀ i, i < Slots.length → SlotCategory (n + i) ≠ c) :
    cSlotAreaArmor.DistributeStack.run GetMaxStackSize SlotCategory c a_ShouldApply
        a_KeepEmptySlots n a_ItemStack Slots = (Slots, a_ItemStack) := by
  induction Slots generalizing n with
  | nil => rfl
  | cons Slot rest ih =>
    unfold cSlotAreaArmor.DistributeStack.run
    have h0 : SlotCategory n ≠ c := by
      have := hne 0 (by simp)
      simpa using this
    simp only [h0, if_false]
    rw [ih (n + 1) (fun i hi => by
      rw [show n + 1 + i = n + (i + 1) by omega]
      exact hne (i + 1) (by simpa using hi))]

/-- C5: armor gating. `cSlotAreaArmor::DistributeStack` of a stack of type `T`
leaves every armor slot whose equip category differs from the category of `T`
as it was, so it writes into a slot only if the categories agree; and when `T`
has the category of no armor slot, the area and the stack (its count with it)
come back unchanged. -/
theorem armor_gating {Window Category : Type} [DecidableEq Category]
    (GetMaxStackSize : Int → Nat) (EquipCategory : Int → Category)
    (SlotCategory : Nat → Category) (self : cSlotArea Window (List cItem))
    (a_ItemStack : cItem) (a_Player : cPlayer) (a_ShouldApply a_KeepEmptySlots : Bool) :
    (∀ i : Nat, SlotCategory i ≠ EquipCategory a_ItemStack.m_ItemType →
        (cSlotAreaArmor.DistributeStack GetMaxStackSize EquipCategory SlotCategory self
            a_ItemStack a_Player a_ShouldApply a_KeepEmptySlots).1.m_Backing[i]?
          = self.m_Backing[i]?) ∧
      ((∀ i : Nat, i < self.m_Backing.length →
          SlotCategory i ≠ EquipCategory a_ItemStack.m_ItemType) →
        (cSlotAreaArmor.DistributeStack GetMaxStackSize EquipCategory SlotCategory self
            a_ItemStack a_Player a_ShouldApply a_KeepEmptySlots).1 = self ∧
        (cSlotAreaArmor.DistributeStack GetMaxStackSize EquipCategory SlotCategory self
            a_ItemStack a_Player a_ShouldApply a_KeepEmptySlots).2 = a_ItemStack) := by
  constructor
  · intro i hne
    unfold cSlotAreaArmor.DistributeStack
    exact armor_run_other_slots GetMaxStackSize SlotCategory _ a_ShouldApply a_KeepEmptySlots
      0 a_ItemStack self.m_Backing i (by simpa using hne)
  · intro hne
    unfold cSlotAreaArmor.DistributeStack
    rw [armor_run_no_match GetMaxStackSize SlotCategory _ a_ShouldApply a_KeepEmptySlots 0
      a_ItemStack self.m_Backing (fun i hi => by simpa using hne i hi)]
    exact ⟨rfl, rfl⟩

/-- C5 on an armor area of four empty slots: a stack of 10 of type 1, which
has the category of no armor slot, comes back whole and no slot is changed. -/
theorem armor_gating_witness :
    (∀ i : Nat, i < exampleArmorArea.m_Backing.length →
        exampleSlotCategory i ≠ exampleEquipCategory (⟨1, 10, 0⟩ : cItem).m_ItemType) ∧
      ((cSlotAreaArmor.DistributeStack exampleMaxStackSize exampleEquipCategory
          exampleSlotCategory exampleArmorArea ⟨1, 10, 0⟩ ⟨7⟩ true false).1 = exampleArmorArea ∧
        (cSlotAreaArmor.DistributeStack exampleMaxStackSize exampleEquipCategory
          exampleSlotCategory exampleArmorArea ⟨1, 10, 0⟩ ⟨7⟩ true false).2 = ⟨1, 10, 0⟩) :=
  ⟨by decide,
    (armor_gating exampleMaxStackSize exampleEquipCategory exampleSlotCategory
      exampleArmorArea ⟨1, 10, 0⟩ ⟨7⟩ true false).2 (by decide)⟩

/-! ## Theorems : conservation -/

/-- An empty stack holds no item of any type. -/
theorem countOf_of_IsEmpty (T : Int) (a_Item : cItem) (h : a_Item.IsEmpty = true) :
    countOf T a_Item = 0 := by
  unfold cItem.IsEmpty at h
  unfold countOf
  have h0 : a_Item.m_ItemCount = 0 := by simpa using h
  split_ifs <;> simp [h0]

/-- The applied first pass moves items from the stack to the slot: the count of
every type over both is kept. -/
theorem merge_conserves (GetMaxStackSize : Int → Nat) (T : Int) (a_ItemStack Slot : cItem) :
    countOf T (cSlotArea.DistributeStack.merge GetMaxStackSize true a_ItemStack Slot).2
        + countOf T (cSlotArea.DistributeStack.merge GetMaxStackSize true a_ItemStack Slot).1
      = countOf T Slot + countOf T a_ItemStack := by
  unfold cSlotArea.DistributeStack.merge
  simp only [if_true]
  split_ifs with h1 h2
  · rfl
  · rfl
  · simp only [Bool.or_eq_true, not_or, bne_iff_ne, ne_eq, not_not] at h1
    have hty : Slot.m_ItemType = a_ItemStack.m_ItemType := h1.2
    simp only [countOf, if_true, hty]
    split_ifs <;> omega

/-- The applied second pass moves items from the stack into an empty slot: the
count of every type over both is kept. -/
theorem place_conserves (GetMaxStackSize : Int → Nat) (T : Int) (a_ItemStack Slot : cItem) :
    countOf T (cSlotArea.DistributeStack.place GetMaxStackSize true a_ItemStack Slot).2
        + countOf T (cSlotArea.DistributeStack.place GetMaxStackSize true a_ItemStack Slot).1
      = countOf T Slot + countOf T a_ItemStack := by
  unfold cSlotArea.DistributeStack.place
  simp only [if_true]
  split_ifs with h1
  · rfl
  · simp only [Bool.or_eq_true, not_or, Bool.not_eq_true', Bool.not_eq_false] at h1
    have hs : countOf T Slot = 0 := countOf_of_IsEmpty T Slot (by simpa using h1.2)
    rw [hs]
    simp only [countOf, if_true]
    split_ifs <;> omega

/-- A pass whose step keeps the count of a type over stack and slot keeps the
count of that type over stack and area. -/
theorem forEachSlot_conserves (step : cItem → cItem → cItem × cItem) (T : Int)
    (hstep : ∀ a_ItemStack Slot,
      countOf T (step a_ItemStack Slot).2 + countOf T (step a_ItemStack Slot).1
        = countOf T Slot + countOf T a_ItemStack)
    (a_ItemStack : cItem) (Slots : List cItem) :
    totalOf T (forEachSlot step a_ItemStack Slots).1
        + countOf T (forEachSlot step a_ItemStack Slots).2
      = totalOf T Slots + countOf T a_ItemStack := by
  induction Slots generalizing a_ItemStack with
  | nil => rfl
  | cons Slot rest ih =>
    simp only [forEachSlot, totalOf]
    have h1 := ih (step a_ItemStack Slot).1
    have h2 := hstep a_ItemStack Slot
    omega

/-- The applied slot-list `DistributeStack` keeps the count of every type over
the slots and the stack. -/
theorem DistributeStack_run_conserves (GetMaxStackSize : Int → Nat) (T : Int)
    (Slots : List cItem) (a_ItemStack : cItem) (a_KeepEmptySlots : Bool) :
    totalOf T (cSlotArea.DistributeStack.run GetMaxStackSize Slots a_ItemStack true
          a_KeepEmptySlots).1
        + countOf T (cSlotArea.DistributeStack.run GetMaxStackSize Slots a_ItemStack true
          a_KeepEmptySlots).2
      = totalOf T Slots + countOf T a_ItemStack := by
  have h1 := forEachSlot_conserves _ T (merge_conserves GetMaxStackSize T) a_ItemStack Slots
  unfold cSlotArea.DistributeStack.run
  simp only
  split_ifs
  · rw [forEachSlot_conserves _ T (place_conserves GetMaxStackSize T), h1]
  · exact h1

/-- The move of `CollectItemsToHand` at a slot it collects from keeps the count
of every type over the slot and `a_Dragging`. -/
theorem move_conserves (GetMaxStackSize : Int → Nat) (T : Int) (a_CollectFullStacks : Bool)
    (a_Dragging Slot : cItem)
    (hs : cSlotArea.CollectItemsToHand.skips GetMaxStackSize a_CollectFullStacks a_Dragging
      Slot = false) :
    countOf T (cSlotArea.CollectItemsToHand.move GetMaxStackSize a_Dragging Slot).2
        + countOf T (cSlotArea.CollectItemsToHand.move GetMaxStackSize a_Dragging Slot).1
      = countOf T Slot + countOf T a_Dragging := by
  unfold cSlotArea.CollectItemsToHand.skips at hs
  simp only [Bool.or_eq_false_iff, Bool.not_eq_false', Bool.or_eq_true, beq_iff_eq] at hs
  unfold cSlotArea.CollectItemsToHand.move
  cases hd : a_Dragging.IsEmpty with
  | true =>
    rw [countOf_of_IsEmpty T a_Dragging hd]
    simp only [if_true]
    unfold countOf
    dsimp only
    split_ifs <;> omega
  | false =>
    have hty : Slot.m_ItemType = a_Dragging.m_ItemType := by
      rcases hs.1.2 with h | h
      · rw [hd] at h; exact absurd h (by decide)
      · exact h
    simp only [Bool.false_eq_true, if_false]
    unfold countOf
    dsimp only
    rw [hty]
    split_ifs <;> omega

/-- The scan of `CollectItemsToHand` keeps the count of every type over the
slots and `a_Dragging`. -/
theorem CollectItemsToHand_run_conserves (GetMaxStackSize : Int → Nat) (T : Int)
    (a_CollectFullStacks : Bool) (a_Dragging : cItem) (Slots : List cItem) :
    totalOf T (cSlotArea.CollectItemsToHand.run GetMaxStackSize a_CollectFullStacks
          a_Dragging Slots).2.2
        + countOf T (cSlotArea.CollectItemsToHand.run GetMaxStackSize a_CollectFullStacks
          a_Dragging Slots).2.1
      = totalOf T Slots + countOf T a_Dragging := by
  induction Slots generalizing a_Dragging with
  | nil => rfl
  | cons Slot rest ih =>
    unfold cSlotArea.CollectItemsToHand.run
    by_cases hs : cSlotArea.CollectItemsToHand.skips GetMaxStackSize a_CollectFullStacks
        a_Dragging Slot = true
    · simp only [hs, if_true, totalOf]
      have := ih a_Dragging
      omega
    · have hs' : cSlotArea.CollectItemsToHand.skips GetMaxStackSize a_CollectFullStacks
          a_Dragging Slot = false := by simpa using hs
      have hm := move_conserves GetMaxStackSize T a_CollectFullStacks a_Dragging Slot hs'
      simp only [hs', Bool.false_eq_true, if_false]
      split_ifs
      · simp only [totalOf]
        omega
      · simp only [totalOf]
        have := ih (cSlotArea.CollectItemsToHand.move GetMaxStackSize a_Dragging Slot).1
        omega

/-- One call keeps the count of every type over the area and the carried
stack. -/
theorem perform_conserves {Window : Type} (GetMaxStackSize : Int → Nat) (T : Int)
    (call : AreaCall) (state : cSlotArea Window (List cItem) × cItem) :
    totalOf T (call.perform GetMaxStackSize state).1.m_Backing
        + countOf T (call.perform GetMaxStackSize state).2
      = totalOf T state.1.m_Backing + countOf T state.2 := by
  obtain ⟨area, stack⟩ := state
  cases call with
  | distribute a_Player a_KeepEmptySlots =>
    exact DistributeStack_run_conserves GetMaxStackSize T area.m_Backing stack a_KeepEmptySlots
  | collect a_Player a_CollectFullStacks =>
    exact CollectItemsToHand_run_conserves GetMaxStackSize T a_CollectFullStacks stack
      area.m_Backing

/-- C4: conservation. For every item type and every sequence of applied
`DistributeStack` and `CollectItemsToHand` calls on an area, the total count of
that type over the slots of the area plus the count in the carried stack is
the same after the sequence as before it; the disabled `DistributeStack` of
the crafting area keeps it as well, for the slots of every player. -/
theorem conservation {Window Recipe : Type} (GetMaxStackSize : Int → Nat) (T : Int)
    (calls : List AreaCall) (area : cSlotArea Window (List cItem)) (stack : cItem)
    (crafting : cSlotAreaCrafting Window Recipe) (a_Player : cPlayer)
    (a_ShouldApply a_KeepEmptySlots : Bool) :
    (totalOf T (performAll GetMaxStackSize calls (area, stack)).1.m_Backing
          + countOf T (performAll GetMaxStackSize calls (area, stack)).2
        = totalOf T area.m_Backing + countOf T stack) ∧
      (∀ id : Int,
        totalOf T ((cSlotAreaTemporary.findItems id
              (crafting.DistributeStack stack a_Player a_ShouldApply
                a_KeepEmptySlots).1.m_Items).getD [])
            + countOf T (crafting.DistributeStack stack a_Player a_ShouldApply
              a_KeepEmptySlots).2
          = totalOf T ((cSlotAreaTemporary.findItems id crafting.m_Items).getD [])
            + countOf T stack) := by
  refine ⟨?_, fun _ => rfl⟩
  induction calls generalizing area stack with
  | nil => rfl
  | cons call calls ih =>
    simp only [performAll]
    have h1 := perform_conserves GetMaxStackSize T call (area, stack)
    have h2 := ih (call.perform GetMaxStackSize (area, stack)).1
      (call.perform GetMaxStackSize (area, stack)).2
    simp only [Prod.mk.eta] at h2
    rw [h2, h1]

/-! ## Theorems : CollectItemsToHand -/

/-- The scan at a slot it passes over. -/
theorem run_cons_skip (GetMaxStackSize : Int → Nat) (a_CollectFullStacks : Bool)
    (a_Dragging Slot : cItem) (rest : List cItem)
    (hs : cSlotArea.CollectItemsToHand.skips GetMaxStackSize a_CollectFullStacks a_Dragging
      Slot = true) :
    cSlotArea.CollectItemsToHand.run GetMaxStackSize a_CollectFullStacks a_Dragging
        (Slot :: rest)
      = ((cSlotArea.CollectItemsToHand.run GetMaxStackSize a_CollectFullStacks a_Dragging
            rest).1,
          (cSlotArea.CollectItemsToHand.run GetMaxStackSize a_CollectFullStacks a_Dragging
            rest).2.1,
          Slot :: (cSlotArea.CollectItemsToHand.run GetMaxStackSize a_CollectFullStacks
            a_Dragging rest).2.2) := by
  rw [cSlotArea.CollectItemsToHand.run]
  simp only [hs, if_true]

/-- The scan at a slot whose move fills `a_Dragging`: it stops there. -/
theorem run_cons_full (GetMaxStackSize : Int → Nat) (a_CollectFullStacks : Bool)
    (a_Dragging Slot : cItem) (rest : List cItem)
    (hs : cSlotArea.CollectItemsToHand.skips GetMaxStackSize a_CollectFullStacks a_Dragging
      Slot = false)
    (hf : (cSlotArea.CollectItemsToHand.move GetMaxStackSize a_Dragging Slot).1.IsFull
      GetMaxStackSize = true) :
    cSlotArea.CollectItemsToHand.run GetMaxStackSize a_CollectFullStacks a_Dragging
        (Slot :: rest)
      = (true, (cSlotArea.CollectItemsToHand.move GetMaxStackSize a_Dragging Slot).1,
          (cSlotArea.CollectItemsToHand.move GetMaxStackSize a_Dragging Slot).2 :: rest) := by
  rw [cSlotArea.CollectItemsToHand.run]
  simp only [hs, hf, Bool.false_eq_true, if_false, if_true]

/-- The scan at a slot whose move leaves room in `a_Dragging`: it goes on. -/
theorem run_cons_more (GetMaxStackSize : Int → Nat) (a_CollectFullStacks : Bool)
    (a_Dragging Slot : cItem) (rest : List cItem)
    (hs : cSlotArea.CollectItemsToHand.skips GetMaxStackSize a_CollectFullStacks a_Dragging
      Slot = false)
    (hf : (cSlotArea.CollectItemsToHand.move GetMaxStackSize a_Dragging Slot).1.IsFull
      GetMaxStackSize = false) :
    cSlotArea.CollectItemsToHand.run GetMaxStackSize a_CollectFullStacks a_Dragging
        (Slot :: rest)
      = ((cSlotArea.CollectItemsToHand.run GetMaxStackSize a_CollectFullStacks
            (cSlotArea.CollectItemsToHand.move GetMaxStackSize a_Dragging Slot).1 rest).1,
          (cSlotArea.CollectItemsToHand.run GetMaxStackSize a_CollectFullStacks
            (cSlotArea.CollectItemsToHand.move GetMaxStackSize a_Dragging Slot).1 rest).2.1,
          (cSlotArea.CollectItemsToHand.move GetMaxStackSize a_Dragging Slot).2 ::
            (cSlotArea.CollectItemsToHand.run GetMaxStackSize a_CollectFullStacks
              (cSlotArea.CollectItemsToHand.move GetMaxStackSize a_Dragging Slot).1
              rest).2.2) := by
  rw [cSlotArea.CollectItemsToHand.run]
  simp only [hs, hf, Bool.false_eq_true, if_false]

/-- The flag returned by the scan is the fullness of `a_Dragging` after it. -/
theorem CollectItemsToHand_run_flag (GetMaxStackSize : Int → Nat) (a_CollectFullStacks : Bool)
    (a_Dragging : cItem) (Slots : List cItem) :
    (cSlotArea.CollectItemsToHand.run GetMaxStackSize a_CollectFullStacks a_Dragging Slots).1
      = (cSlotArea.CollectItemsToHand.run GetMaxStackSize a_CollectFullStacks a_Dragging
          Slots).2.1.IsFull GetMaxStackSize := by
  induction Slots generalizing a_Dragging with
  | nil => rfl
  | cons Slot rest ih =>
    cases hs : cSlotArea.CollectItemsToHand.skips GetMaxStackSize a_CollectFullStacks
        a_Dragging Slot with
    | true =>
      rw [run_cons_skip _ _ _ _ _ hs]
      exact ih a_Dragging
    | false =>
      cases hf : (cSlotArea.CollectItemsToHand.move GetMaxStackSize a_Dragging Slot).1.IsFull
          GetMaxStackSize with
      | true =>
        rw [run_cons_full _ _ _ _ _ hs hf]
        exact hf.symm
      | false =>
        rw [run_cons_more _ _ _ _ _ hs hf]
        exact ih _

/-- The scan keeps the number of slots. -/
theorem CollectItemsToHand_run_length (GetMaxStackSize : Int → Nat)
    (a_CollectFullStacks : Bool) (a_Dragging : cItem) (Slots : List cItem) :
    (cSlotArea.CollectItemsToHand.run GetMaxStackSize a_CollectFullStacks a_Dragging
        Slots).2.2.length = Slots.length := by
  induction Slots generalizing a_Dragging with
  | nil => rfl
  | cons Slot rest ih =>
    cases hs : cSlotArea.CollectItemsToHand.skips GetMaxStackSize a_CollectFullStacks
        a_Dragging Slot with
    | true =>
      rw [run_cons_skip _ _ _ _ _ hs]
      simp [ih]
    | false =>
      cases hf : (cSlotArea.CollectItemsToHand.move GetMaxStackSize a_Dragging Slot).1.IsFull
          GetMaxStackSize with
      | true =>
        rw [run_cons_full _ _ _ _ _ hs hf]
        simp
      | false =>
        rw [run_cons_more _ _ _ _ _ hs hf]
        simp [ih]

/-- The move never fills `a_Dragging` beyond the max stack size of its type. -/
theorem move_within_capacity (GetMaxStackSize : Int → Nat) (a_Dragging Slot : cItem)
    (hinv : a_Dragging.m_ItemCount ≤ GetMaxStackSize a_Dragging.m_ItemType) :
    (cSlotArea.CollectItemsToHand.move GetMaxStackSize a_Dragging Slot).1.m_ItemCount
      ≤ GetMaxStackSize
          (cSlotArea.CollectItemsToHand.move GetMaxStackSize a_Dragging Slot).1.m_ItemType := by
  unfold cSlotArea.CollectItemsToHand.move
  cases hd : a_Dragging.IsEmpty with
  | true =>
    simp only [if_true]
    omega
  | false =>
    simp only [Bool.false_eq_true, if_false]
    omega

/-- The scan never fills `a_Dragging` beyond the max stack size of its type. -/
theorem CollectItemsToHand_run_within_capacity (GetMaxStackSize : Int → Nat)
    (a_CollectFullStacks : Bool) (a_Dragging : cItem) (Slots : List cItem)
    (hinv : a_Dragging.m_ItemCount ≤ GetMaxStackSize a_Dragging.m_ItemType) :
    (cSlotArea.CollectItemsToHand.run GetMaxStackSize a_CollectFullStacks a_Dragging
        Slots).2.1.m_ItemCount
      ≤ GetMaxStackSize (cSlotArea.CollectItemsToHand.run GetMaxStackSize a_CollectFullStacks
          a_Dragging Slots).2.1.m_ItemType := by
  induction Slots generalizing a_Dragging with
  | nil => exact hinv
  | cons Slot rest ih =>
    cases hs : cSlotArea.CollectItemsToHand.skips GetMaxStackSize a_CollectFullStacks
        a_Dragging Slot with
    | true =>
      rw [run_cons_skip _ _ _ _ _ hs]
      exact ih a_Dragging hinv
    | false =>
      cases hf : (cSlotArea.CollectItemsToHand.move GetMaxStackSize a_Dragging Slot).1.IsFull
          GetMaxStackSize with
      | true =>
        rw [run_cons_full _ _ _ _ _ hs hf]
        exact move_within_capacity GetMaxStackSize a_Dragging Slot hinv
      | false =>
        rw [run_cons_more _ _ _ _ _ hs hf]
        exact ih _ (move_within_capacity GetMaxStackSize a_Dragging Slot hinv)

/-- The move changes neither a full `a_Dragging` nor the slot, when every max
stack size is positive. -/
theorem move_of_full (GetMaxStackSize : Int → Nat) (hpos : ∀ t, 0 < GetMaxStackSize t)
    (a_Dragging Slot : cItem) (hfull : a_Dragging.IsFull GetMaxStackSize = true) :
    cSlotArea.CollectItemsToHand.move GetMaxStackSize a_Dragging Slot = (a_Dragging, Slot) := by
  unfold cItem.IsFull at hfull
  have hle : GetMaxStackSize a_Dragging.m_ItemType ≤ a_Dragging.m_ItemCount := by
    simpa using hfull
  have hp := hpos a_Dragging.m_ItemType
  have hd : a_Dragging.IsEmpty = false := by
    unfold cItem.IsEmpty
    simp only [beq_eq_false_iff_ne, ne_eq]
    omega
  unfold cSlotArea.CollectItemsToHand.move
  simp only [hd, Bool.false_eq_true, if_false]
  have h0 : GetMaxStackSize a_Dragging.m_ItemType - a_Dragging.m_ItemCount = 0 := by omega
  simp [h0]

/-- Once `a_Dragging` is full the scan returns true and changes nothing, when
every max stack size is positive. -/
theorem CollectItemsToHand_run_of_full (GetMaxStackSize : Int → Nat)
    (hpos : ∀ t, 0 < GetMaxStackSize t) (a_CollectFullStacks : Bool) (a_Dragging : cItem)
    (Slots : List cItem) (hfull : a_Dragging.IsFull GetMaxStackSize = true) :
    cSlotArea.CollectItemsToHand.run GetMaxStackSize a_CollectFullStacks a_Dragging Slots
      = (true, a_Dragging, Slots) := by
  induction Slots with
  | nil =>
    unfold cSlotArea.CollectItemsToHand.run
    rw [hfull]
  | cons Slot rest ih =>
    have hm := move_of_full GetMaxStackSize hpos a_Dragging Slot hfull
    cases hs : cSlotArea.CollectItemsToHand.skips GetMaxStackSize a_CollectFullStacks
        a_Dragging Slot with
    | true =>
      rw [run_cons_skip _ _ _ _ _ hs, ih]
    | false =>
      rw [run_cons_full _ _ _ _ _ hs (by rw [hm]; exact hfull), hm]

/-- When `a_Dragging` is full after the scan of a prefix of the slots, the scan
of all the slots ends as the scan of the prefix and leaves the other slots. -/
theorem CollectItemsToHand_run_append (GetMaxStackSize : Int → Nat)
    (hpos : ∀ t, 0 < GetMaxStackSize t) (a_CollectFullStacks : Bool) (a_Dragging : cItem)
    (xs ys : List cItem)
    (hfull : (cSlotArea.CollectItemsToHand.run GetMaxStackSize a_CollectFullStacks a_Dragging
      xs).2.1.IsFull GetMaxStackSize = true) :
    cSlotArea.CollectItemsToHand.run GetMaxStackSize a_CollectFullStacks a_Dragging (xs ++ ys)
      = (true,
          (cSlotArea.CollectItemsToHand.run GetMaxStackSize a_CollectFullStacks a_Dragging
            xs).2.1,
          (cSlotArea.CollectItemsToHand.run GetMaxStackSize a_CollectFullStacks a_Dragging
            xs).2.2 ++ ys) := by
  induction xs generalizing a_Dragging with
  | nil =>
    have hd : a_Dragging.IsFull GetMaxStackSize = true := hfull
    rw [List.nil_append,
      CollectItemsToHand_run_of_full GetMaxStackSize hpos a_CollectFullStacks a_Dragging ys hd]
    rfl
  | cons Slot rest ih =>
    rw [List.cons_append]
    cases hs : cSlotArea.CollectItemsToHand.skips GetMaxStackSize a_CollectFullStacks
        a_Dragging Slot with
    | true =>
      rw [run_cons_skip _ _ _ _ rest hs] at hfull
      rw [run_cons_skip _ _ _ _ (rest ++ ys) hs, run_cons_skip _ _ _ _ rest hs,
        ih a_Dragging hfull]
      rfl
    | false =>
      cases hf : (cSlotArea.CollectItemsToHand.move GetMaxStackSize a_Dragging Slot).1.IsFull
          GetMaxStackSize with
      | true =>
        rw [run_cons_full _ _ _ _ (rest ++ ys) hs hf, run_cons_full _ _ _ _ rest hs hf]
        rfl
      | false =>
        rw [run_cons_more _ _ _ _ rest hs hf] at hfull
        rw [run_cons_more _ _ _ _ (rest ++ ys) hs hf, run_cons_more _ _ _ _ rest hs hf,
          ih _ hfull]
        rfl

/-- The scan of the first `k` slots, once `a_Dragging` is full after it, fixes
the outcome of the scan of all the slots: `a_Dragging` is the same and the
slots from number `k` on are as before. -/
theorem CollectItemsToHand_run_take (GetMaxStackSize : Int → Nat)
    (hpos : ∀ t, 0 < GetMaxStackSize t) (a_CollectFullStacks : Bool) (a_Dragging : cItem)
    (Slots : List cItem) (k : Nat)
    (hfull : (cSlotArea.CollectItemsToHand.run GetMaxStackSize a_CollectFullStacks a_Dragging
      (Slots.take k)).2.1.IsFull GetMaxStackSize = true) :
    (cSlotArea.CollectItemsToHand.run GetMaxStackSize a_CollectFullStacks a_Dragging
          Slots).2.1
        = (cSlotArea.CollectItemsToHand.run GetMaxStackSize a_CollectFullStacks a_Dragging
          (Slots.take k)).2.1 ∧
      (cSlotArea.CollectItemsToHand.run GetMaxStackSize a_CollectFullStacks a_Dragging
          Slots).2.2.drop k = Slots.drop k := by
  have happ := CollectItemsToHand_run_append GetMaxStackSize hpos a_CollectFullStacks
    a_Dragging (Slots.take k) (Slots.drop k) hfull
  rw [List.take_append_drop] at happ
  rw [happ]
  refine ⟨rfl, ?_⟩
  have hlen := CollectItemsToHand_run_length GetMaxStackSize a_CollectFullStacks a_Dragging
    (Slots.take k)
  by_cases hk : k ≤ Slots.length
  · have hk2 : (cSlotArea.CollectItemsToHand.run GetMaxStackSize a_CollectFullStacks
        a_Dragging (Slots.take k)).2.2.length = k := by
      rw [hlen, List.length_take]; omega
    exact List.drop_left' hk2
  · have hk2 : Slots.drop k = [] := List.drop_eq_nil_of_le (by omega)
    rw [hk2, List.append_nil]
    exact List.drop_eq_nil_of_le (by rw [hlen, List.length_take]; omega)

/-- Every max stack size of the example lookup is positive. -/
theorem exampleMaxStackSize_pos (t : Int) : 0 < exampleMaxStackSize t := by
  unfold exampleMaxStackSize
  split_ifs <;> decide

/-- C3: `CollectItemsToHand` returns true exactly when, after the call, the
count of `a_Dragging` equals the max stack size of its item type, and false
with room left in it; and once `a_Dragging` is full after the scan of the
first `k` slots, the call returns true with that `a_Dragging` and no slot from
number `k` on is changed. The stack given obeys the invariant of item stacks
(count at most the max stack size) and max stack sizes are positive. -/
theorem CollectItemsToHand_true_iff_full {Window : Type} (GetMaxStackSize : Int → Nat)
    (hpos : ∀ t, 0 < GetMaxStackSize t) (self : cSlotArea Window (List cItem))
    (a_Dragging : cItem) (a_Player : cPlayer) (a_CollectFullStacks : Bool)
    (hinv : a_Dragging.m_ItemCount ≤ GetMaxStackSize a_Dragging.m_ItemType) :
    ((cSlotArea.CollectItemsToHand GetMaxStackSize self a_Dragging a_Player
          a_CollectFullStacks).1 = true ↔
        (cSlotArea.CollectItemsToHand GetMaxStackSize self a_Dragging a_Player
            a_CollectFullStacks).2.1.m_ItemCount
          = GetMaxStackSize (cSlotArea.CollectItemsToHand GetMaxStackSize self a_Dragging
              a_Player a_CollectFullStacks).2.1.m_ItemType) ∧
      ((cSlotArea.CollectItemsToHand GetMaxStackSize self a_Dragging a_Player
          a_CollectFullStacks).1 = false →
        (cSlotArea.CollectItemsToHand GetMaxStackSize self a_Dragging a_Player
            a_CollectFullStacks).2.1.m_ItemCount
          < GetMaxStackSize (cSlotArea.CollectItemsToHand GetMaxStackSize self a_Dragging
              a_Player a_CollectFullStacks).2.1.m_ItemType) ∧
      (∀ k : Nat,
        (cSlotArea.CollectItemsToHand GetMaxStackSize
            { self with m_Backing := self.m_Backing.take k } a_Dragging a_Player
            a_CollectFullStacks).2.1.IsFull GetMaxStackSize = true →
        (cSlotArea.CollectItemsToHand GetMaxStackSize self a_Dragging a_Player
            a_CollectFullStacks).1 = true ∧
          (cSlotArea.CollectItemsToHand GetMaxStackSize self a_Dragging a_Player
              a_CollectFullStacks).2.1
            = (cSlotArea.CollectItemsToHand GetMaxStackSize
                { self with m_Backing := self.m_Backing.take k } a_Dragging a_Player
                a_CollectFullStacks).2.1 ∧
          (cSlotArea.CollectItemsToHand GetMaxStackSize self a_Dragging a_Player
              a_CollectFullStacks).2.2.m_Backing.drop k = self.m_Backing.drop k) := by
  have hflag := CollectItemsToHand_run_flag GetMaxStackSize a_CollectFullStacks a_Dragging
    self.m_Backing
  have hcap := CollectItemsToHand_run_within_capacity GetMaxStackSize a_CollectFullStacks
    a_Dragging self.m_Backing hinv
  unfold cSlotArea.CollectItemsToHand
  simp only
  unfold cItem.IsFull at hflag
  refine ⟨?_, ?_, ?_⟩
  · rw [hflag, decide_eq_true_iff]
    constructor
    · intro h; omega
    · intro h; omega
  · rw [hflag, decide_eq_false_iff_not]
    intro h; omega
  · intro k hk
    have htake := CollectItemsToHand_run_take GetMaxStackSize hpos a_CollectFullStacks
      a_Dragging self.m_Backing k hk
    refine ⟨?_, htake.1, htake.2⟩
    rw [hflag, htake.1]
    exact hk

/-- C3 on the example area, with 10 of type 1 in hand and full stacks passed
over: the 60 of slot 0 fill the hand to 64 at slot 0, the call returns true,
and the slots from number 1 on are as before. -/
theorem CollectItemsToHand_true_iff_full_witness :
    ((⟨1, 10, 0⟩ : cItem).m_ItemCount ≤ exampleMaxStackSize (⟨1, 10, 0⟩ : cItem).m_ItemType) ∧
      ((cSlotArea.CollectItemsToHand exampleMaxStackSize exampleArea ⟨1, 10, 0⟩ ⟨7⟩
          false).1 = true ∧
        (cSlotArea.CollectItemsToHand exampleMaxStackSize exampleArea ⟨1, 10, 0⟩ ⟨7⟩
          false).2.1 = ⟨1, 64, 0⟩ ∧
        (cSlotArea.CollectItemsToHand exampleMaxStackSize exampleArea ⟨1, 10, 0⟩ ⟨7⟩
          false).2.2.m_Backing.drop 1 = exampleArea.m_Backing.drop 1) :=
  ⟨by decide,
    ((CollectItemsToHand_true_iff_full exampleMaxStackSize exampleMaxStackSize_pos exampleArea
        ⟨1, 10, 0⟩ ⟨7⟩ false (by decide)).2.2 1 (by decide)).imp_right
      (fun h => ⟨h.1.trans (by decide), h.2⟩)⟩

/-! ## The algorithms on the example area -/

/-- An applied `DistributeStack` of 64 of type 1 on the example area: slot 0
takes 4, slot 3 takes 54, the empty slot 1 takes the last 6. -/
theorem DistributeStack_example_applied :
    cSlotArea.DistributeStack.run exampleMaxStackSize exampleArea.m_Backing ⟨1, 64, 0⟩ true
        false
      = ([⟨1, 64, 0⟩, ⟨1, 6, 0⟩, ⟨2, 5, 0⟩, ⟨1, 64, 0⟩], ⟨1, 0, 0⟩) := by
  decide

/-- The dry run of the same call: the slots are as before, the stack is used
up all the same. -/
theorem DistributeStack_example_dry :
    cSlotArea.DistributeStack.run exampleMaxStackSize exampleArea.m_Backing ⟨1, 64, 0⟩ false
        false
      = (exampleArea.m_Backing, ⟨1, 0, 0⟩) := by
  decide

/-- With `a_KeepEmptySlots` the empty slot is not filled and 6 items stay in the
stack. -/
theorem DistributeStack_example_keep :
    cSlotArea.DistributeStack.run exampleMaxStackSize exampleArea.m_Backing ⟨1, 64, 0⟩ true
        true
      = ([⟨1, 64, 0⟩, cItem.Zeroed, ⟨2, 5, 0⟩, ⟨1, 64, 0⟩], ⟨1, 6, 0⟩) := by
  decide

/-- `CollectItemsToHand` with an empty hand adopts type 1 from slot 0, takes
its 60 and 4 of the 10 of slot 3, and returns true. -/
theorem CollectItemsToHand_example_adopt :
    cSlotArea.CollectItemsToHand.run exampleMaxStackSize true ⟨0, 0, 0⟩ exampleArea.m_Backing
      = (true, ⟨1, 64, 0⟩, [⟨1, 0, 0⟩, cItem.Zeroed, ⟨2, 5, 0⟩, ⟨1, 6, 0⟩]) := by
  decide

/-- `CollectItemsToHand` for type 2 exhausts the area with room left and
returns false. -/
theorem CollectItemsToHand_example_exhausted :
    cSlotArea.CollectItemsToHand.run exampleMaxStackSize true ⟨2, 1, 0⟩ exampleArea.m_Backing
      = (false, ⟨2, 6, 0⟩, [⟨1, 60, 0⟩, cItem.Zeroed, ⟨2, 0, 0⟩, ⟨1, 10, 0⟩]) := by
  decide

/-- A helmet goes into the head-gear slot of the example armor area and into no
other slot. -/
theorem armor_example_helmet :
    (cSlotAreaArmor.DistributeStack exampleMaxStackSize exampleEquipCategory
        exampleSlotCategory exampleArmorArea ⟨298, 1, 0⟩ ⟨7⟩ true false).1.m_Backing
      = [⟨298, 1, 0⟩, cItem.Zeroed, cItem.Zeroed, cItem.Zeroed] := by
  decide

end MCServer
